import Mathlib

/-!
# Verification of the weft Activity Aggregation Engine

Shallow embedding of the engine found in `src/utils/date.ts` and
`src/fetchers/githubFetcher.ts`.  Instants are modelled as integer epoch
milliseconds (the value of `Date.prototype.getTime`); JavaScript strings are
modelled as `List Char`; fallible operations (HTTP requests, `Intl`
constructors that may throw `RangeError`) are modelled with `Except`.
-/

namespace Weft

/-! ## JavaScript primitives used by the engine -/

/-- Numeric value of a list of decimal digit characters (most significant
first), as accumulated by `parseInt` once it has selected the digit prefix. -/
def digitsVal (ds : List Char) : Nat :=
  ds.foldl (fun a c => 10 * a + (c.toNat - 48)) 0

/-- Hexadecimal digit, as accepted by `parseInt` after a `0x`/`0X` prefix. -/
def isJsHexDigit (c : Char) : Bool :=
  c.isDigit || ('a' ≤ c && c ≤ 'f') || ('A' ≤ c && c ≤ 'F')

/-- Value of one hexadecimal digit character. -/
def hexDigitVal (c : Char) : Nat :=
  if c.isDigit then c.toNat - 48
  else if 'a' ≤ c then c.toNat - 87
  else c.toNat - 55

/-- Numeric value of a list of hexadecimal digit characters. -/
def hexDigitsVal (ds : List Char) : Nat :=
  ds.foldl (fun a c => 16 * a + hexDigitVal c) 0

/-- Whether the (sign-stripped) input starts with the `0x`/`0X` radix
prefix recognised by `parseInt`. -/
def hasHexPrefix : List Char → Bool
  | c0 :: c1 :: _ => c0 = '0' && (c1 = 'x' || c1 = 'X')
  | _ => false

/-- Magnitude part of `parseInt(s)` with unspecified radix, applied after
sign processing: a `0x`/`0X` prefix switches to base 16; otherwise the
longest leading run of decimal digits is read; an empty run is `NaN`
(modelled as `none`). -/
def jsParseIntMag (s : List Char) : Option Nat :=
  if hasHexPrefix s then
    let ds := (s.drop 2).takeWhile isJsHexDigit
    if ds.isEmpty then none else some (hexDigitsVal ds)
  else
    let ds := s.takeWhile Char.isDigit
    if ds.isEmpty then none else some (digitsVal ds)

/-- JavaScript `parseInt(s)` with unspecified radix: skip leading
whitespace, read an optional `+`/`-` sign, then the magnitude
(`jsParseIntMag`); `NaN` is modelled as `none`.  So `parseInt("+5") = 5`
and `parseInt("-5") = -5`. -/
def jsParseInt (s : List Char) : Option Int :=
  match s.dropWhile Char.isWhitespace with
  | [] => none
  | c :: rest =>
    if c = '+' then (jsParseIntMag rest).map Int.ofNat
    else if c = '-' then (jsParseIntMag rest).map (fun n => -Int.ofNat n)
    else (jsParseIntMag (c :: rest)).map Int.ofNat

/-- JavaScript `s.replace('h', '')`: `String.prototype.replace` with a string
pattern removes only the first occurrence. -/
def removeFirst (c : Char) : List Char → List Char
  | [] => []
  | x :: xs => if x = c then xs else x :: removeFirst c xs

/-- The expression `parseInt(durationStr.replace('h', '')) || 24` shared by
`getWindowRange` (`date.ts` line 19) and `fetchGithubMetrics`
(`githubFetcher.ts` line 104): `||` replaces both `NaN` and `±0` by `24`.
The result may be negative (e.g. for `"-5h"`). -/
def jsWindowHours (durationStr : List Char) : Int :=
  match jsParseInt (removeFirst 'h' durationStr) with
  | none => 24
  | some n => if n = 0 then 24 else n

/-- `Math.ceil(a / b)` for an integer `a` and a positive integer `b`
(floor division shifted by `b - 1`). -/
def jsCeilDiv (a b : Int) : Int := (a + b - 1).fdiv b

/-! ## `src/utils/date.ts` — Window Resolver -/

/-- Result of `getWindowRange`.  The source returns `from`/`to` as ISO strings
and `timestamp` as epoch milliseconds; the model keeps all three as the epoch
milliseconds underlying those ISO strings. -/
structure WindowRange where
  fromMs : Int
  toMs : Int
  timestamp : Int
  deriving DecidableEq

/-- `getWindowRange` (`date.ts` lines 17–27): `hours` is
`parseInt(durationStr.replace('h', '')) || 24`, `from` is
`now − hours·3600000` ms, `to` is `now`. -/
def getWindowRange (now : Int) (durationStr : List Char) : WindowRange :=
  let hours := jsWindowHours durationStr
  { fromMs := now - hours * 3600000, toMs := now, timestamp := now }

/-! ## `src/fetchers/githubFetcher.ts` — interval scheme -/

/-- `calculateIntervalSize` (`githubFetcher.ts` lines 77–82); a negative
span falls into the first branch.  Always at least 1. -/
def calculateIntervalSize (windowHours : Int) : Int :=
  if windowHours ≤ 24 then 1
  else if windowHours ≤ 48 then 2
  else if windowHours ≤ 72 then 3
  else jsCeilDiv windowHours 24

/-- `calculateIntervalCount` (`githubFetcher.ts` lines 90–92); negative for
a negative span (`Math.ceil(-5) = -5`). -/
def calculateIntervalCount (windowHours intervalSize : Int) : Int :=
  jsCeilDiv windowHours intervalSize

/-- `new Array(n).fill(0)` (`githubFetcher.ts` lines 228 and 349): the
`Array` constructor throws a `RangeError` for a negative length; otherwise
`n` zero entries. -/
def jsArrayFill0 (n : Int) : Except (List Char) (List Nat) :=
  if n < 0 then Except.error (("RangeError: Invalid array length").toList)
  else Except.ok (List.replicate n.toNat 0)

/-! ## Interval Bucketer (`githubFetcher.ts` lines 227–240) -/

/-- Add `v` to entry `i` of a list of counters; indices past the end are left
alone (bucket indices are range-checked before every write in the source). -/
def addAt : List Nat → Nat → Nat → List Nat
  | [], _, _ => []
  | x :: xs, 0, v => (x + v) :: xs
  | x :: xs, n + 1, v => x :: addAt xs n v

/-- `intervalCounts[intervalIndex] += 1`. -/
def listIncr (l : List Nat) (i : Nat) : List Nat := addAt l i 1

/-- `Math.floor(elapsedMs / intervalMs)` where
`elapsedMs = timestamp.getTime() - fromTime`: floor division on integers. -/
def bucketIndex (fromTime intervalMs t : Int) : Int :=
  (t - fromTime).fdiv intervalMs

/-- Body of the `for (const timestamp of commitTimestamps)` loop
(`githubFetcher.ts` lines 232–240): compute the interval index and increment
the counter when `0 ≤ index < intervalCount`. -/
def bucketStep (fromTime intervalMs : Int) (intervalCount : Nat)
    (acc : List Nat) (t : Int) : List Nat :=
  let idx := bucketIndex fromTime intervalMs t
  if 0 ≤ idx ∧ idx < (intervalCount : Int) then listIncr acc idx.toNat else acc

/-- The interval distribution: start from
`new Array(intervalCount).fill(0)` and run the loop over the collected
commit timestamps. -/
def intervalCountsOf (fromTime intervalMs : Int) (intervalCount : Nat)
    (ts : List Int) : List Nat :=
  ts.foldl (bucketStep fromTime intervalMs intervalCount)
    (List.replicate intervalCount 0)

/-! ## Peak Selector (`githubFetcher.ts` lines 244–263, `date.ts` 89–102) -/

/-- The scanning loop shared by the most-active-interval selection in
`fetchGithubMetrics` and by `findMostActiveHour`: walk the counters with a
running `(mostActive, maxCount)` pair, updating only on a strict increase. -/
def peakLoop : List Nat → Nat → Option Nat → Nat → Option Nat × Nat
  | [], _, best, maxC => (best, maxC)
  | c :: rest, i, best, maxC =>
    if maxC < c then peakLoop rest (i + 1) (some i) c
    else peakLoop rest (i + 1) best maxC

/-- `mostActiveInterval` (`githubFetcher.ts` lines 245–257): the scan starts
from `(null, 0)`; afterwards `if (maxIntervalCount === 0) mostActiveInterval
= null`. -/
def mostActiveIntervalOf (counts : List Nat) : Option Nat :=
  let r := peakLoop counts 0 none 0
  if r.2 = 0 then none else r.1

/-- `mostActiveHour` (`githubFetcher.ts` lines 261–263): the starting hour of
the most active interval, `(interval * intervalSize) % 24` (both factors are
nonnegative wherever this is reached, so `%` agrees with JavaScript's
remainder). -/
def mostActiveHourOf (intervalSize : Int) (counts : List Nat) : Option Int :=
  (mostActiveIntervalOf counts).map (fun i => ((i : Int) * intervalSize) % 24)

/-- `findMostActiveHour` (`date.ts` lines 89–102): the same scan over
`hourlyCounts[h] ?? 0` for `h = 0 … 23`. -/
def findMostActiveHour (hourlyCounts : List Nat) : Option Nat :=
  let r := peakLoop ((List.range 24).map (fun h => hourlyCounts.getD h 0)) 0 none 0
  if r.2 = 0 then none else r.1

/-- The Peak Selector as the specification words it: the index of the first
bucket attaining the (strictly positive) maximum count, and `null` when every
bucket is zero.  Stated from the spec, to be compared with the source's
`mostActiveIntervalOf`. -/
def peakSelectorSpec (counts : List Nat) : Option Nat :=
  let m := counts.foldr Nat.max 0
  if m = 0 then none else some (counts.findIdx (fun c => c == m))

/-! ## `src/utils/date.ts` — Timezone Hour Mapper

`convertUTCHourToTimezone` constructs `new Intl.DateTimeFormat('en-US',
{ timeZone: timezone, hour: 'numeric', hour12: false })`.  That constructor
throws a `RangeError` when the runtime's timezone database cannot resolve
`timezone`; the function body contains no `try`/`catch`.  The runtime is
modelled as a partial map from zone names to a formatting function: for a
resolvable zone, the hour value extracted from `formatToParts` for the date
built at a given UTC hour (`none` when the parts carry no hour field). -/

/-- Model of the parts of the `Intl` runtime this code touches. -/
structure IntlRuntime where
  resolveTZ : List Char → Option (Nat → Option Nat)

/-- The string literal `'UTC'`. -/
def utcChars : List Char := ("UTC").toList

/-- `convertUTCHourToTimezone` (`date.ts` lines 35–58).  `Except.error`
models the uncaught `RangeError` from the `Intl.DateTimeFormat`
constructor; when the formatted parts have an hour field its value is
returned, otherwise the input `utcHour` is returned unchanged. -/
def convertUTCHourToTimezone (rt : IntlRuntime) (utcHour : Nat)
    (timezone : List Char) : Except Unit Nat :=
  match rt.resolveTZ timezone with
  | none => Except.error ()
  | some fmtHour =>
    match fmtHour utcHour with
    | some h => Except.ok h
    | none => Except.ok utcHour

/-- `convertHourlyCountsToTimezone` (`date.ts` lines 66–82): `'UTC'` is
returned as a copy without consulting the runtime; otherwise the loop
`for (utcHour = 0; utcHour < 24; utcHour++)` adds `utcHourlyCounts[utcHour]`
to `tzCounts[tzHour]`, and the first uncaught `RangeError` aborts it. -/
def convertHourlyCountsToTimezone (rt : IntlRuntime)
    (utcHourlyCounts : List Nat) (timezone : List Char) :
    Except Unit (List Nat) :=
  if timezone = utcChars then Except.ok utcHourlyCounts
  else
    (List.range 24).foldlM
      (fun tzCounts utcHour =>
        (convertUTCHourToTimezone rt utcHour timezone).map
          (fun tzHour => addAt tzCounts tzHour (utcHourlyCounts.getD utcHour 0)))
      (List.replicate 24 0)

/-! ## `src/fetchers/githubFetcher.ts` — upstream model

The upstream service is modelled as data: the parsed GraphQL payload and the
REST endpoints as functions from request parameters to an `Except`, where
`Except.error status` models `restJson` returning `{ ok: false, status }`.
The worker pools push per-repository results in completion order; every
aggregate below is proved order-independent (claim C7), so the model fixes
the traversal order of `repoContributionNodes`. -/

/-- One element of `res.json.items` from the commit search endpoint:
`item.sha` and `item.commit?.author?.date` (as epoch milliseconds). -/
structure CommitItem where
  sha : Option (List Char)
  authorDate : Option Int
  deriving DecidableEq

/-- `repoBucket.repository` as read by the fetcher. -/
structure GqlRepo where
  ownerLogin : Option (List Char)
  name : List Char
  description : Option (List Char)
  url : Option (List Char)
  isPrivate : Option Bool
  stargazers : Option Nat
  language : Option (List Char)
  deriving DecidableEq

/-- One element of `commitContributionsByRepository` (`repoBucket?.repository`
may be absent). -/
structure GqlRepoBucket where
  repository : Option GqlRepo
  deriving DecidableEq

/-- `user.contributionsCollection`. -/
structure GqlContributionsCollection where
  totalCommitContributions : Option Nat
  totalIssueContributions : Option Nat
  totalPullRequestContributions : Option Nat
  totalPullRequestReviewContributions : Option Nat
  commitContributionsByRepository : Option (List GqlRepoBucket)
  deriving DecidableEq

/-- `json.data.user` of the GraphQL response. -/
structure GqlUser where
  contributionsCollection : Option GqlContributionsCollection
  deriving DecidableEq

/-- `json.data`. -/
structure GqlData where
  user : Option GqlUser
  deriving DecidableEq

/-- The upstream API as observed by one run: the GraphQL reply (`Except`
models `graphqlFetch` throwing on a non-ok HTTP status), the two commit
search requests per `(owner, repo)` (timestamps pass at line 191, SHA pass at
line 271), and the per-commit stats endpoint keyed by `(owner, repo, sha)`
returning `res.json?.stats` (`additions`, `deletions`). -/
structure GithubEnv where
  gql : Except (List Char) GqlData
  searchTimestamps : List Char → List Char → Except Nat (List CommitItem)
  searchShas : List Char → List Char → Except Nat (List CommitItem)
  commitStats : List Char → List Char → List Char → Except Nat (Option (Nat × Nat))

/-- `RepoSummary` entries pushed into `repoEntries`
(`githubFetcher.ts` lines 169–177). -/
structure RepoSummary where
  owner : List Char
  name : List Char
  description : Option (List Char)
  url : Option (List Char)
  isPrivate : Bool
  stargazers : Option Nat
  language : Option (List Char)
  deriving DecidableEq

/-- The `RawMetrics` record assembled at `githubFetcher.ts` lines 327–338. -/
structure RawMetrics where
  commits_count : Nat
  prs_count : Nat
  issues_count : Nat
  reviews_count : Nat
  repos : List RepoSummary
  lines_changed : Nat
  most_active_hour : Option Int
  hourly_counts : List Nat
  interval_size : Int
  deriving DecidableEq

/-- `emptyMetrics` (`githubFetcher.ts` lines 340–352); the call site passes
the computed `intervalCount` (the declaration's default is 24).  The
`new Array(intervalCount).fill(0)` inside it throws for a negative count, so
the result is an `Except`. -/
def emptyMetrics (intervalCount : Int) : Except (List Char) RawMetrics :=
  (jsArrayFill0 intervalCount).map fun hc =>
    { commits_count := 0
      lines_changed := 0
      prs_count := 0
      issues_count := 0
      reviews_count := 0
      repos := []
      most_active_hour := none
      hourly_counts := hc
      interval_size := 1 }

/-- `fetchCommitTimestampsForRepo` (`githubFetcher.ts` lines 187–215): a
non-success search status is logged and yields `[]`; otherwise keep
`item.commit?.author?.date` when present and inside `[fromDate, toDate]`
(both bounds inclusive, line 208). -/
def fetchCommitTimestampsForRepo (env : GithubEnv) (fromMs toMs : Int)
    (owner repo : List Char) : List Int :=
  match env.searchTimestamps owner repo with
  | Except.error _ => []
  | Except.ok items =>
    items.filterMap fun item =>
      match item.authorDate with
      | none => none
      | some d => if fromMs ≤ d ∧ d ≤ toMs then some d else none

/-- `items.map(i => i.sha).filter(Boolean)` (`githubFetcher.ts` line 280):
`Boolean` drops both missing and empty-string SHAs. -/
def validShas (items : List CommitItem) : List (List Char) :=
  items.filterMap fun item =>
    match item.sha with
    | none => none
    | some s => if s = [] then none else some s

/-- `fetchCommitShasForRepo` (`githubFetcher.ts` lines 269–281): one search
page; a non-success status is logged and yields `[]`. -/
def fetchCommitShasForRepo (env : GithubEnv) (owner repo : List Char) :
    List (List Char) :=
  match env.searchShas owner repo with
  | Except.error _ => []
  | Except.ok items => validShas items

/-- Accumulation of `commitShasToFetch` over all repositories
(`githubFetcher.ts` lines 284–293): every SHA of every repository is pushed;
nothing bounds the total. -/
def shaEntries (env : GithubEnv)
    (repoNodes : List (List Char × List Char)) :
    List (List Char × List Char × List Char) :=
  repoNodes.flatMap fun r =>
    (fetchCommitShasForRepo env r.1 r.2).map fun sha => (r.1, r.2, sha)

/-- Contribution of one entry of `commitShasToFetch` to `totalLinesChanged`
(`githubFetcher.ts` lines 298–312): `0` on a non-success status or missing
`stats`, else `Number(stats.additions ?? 0) + Number(stats.deletions ?? 0)`. -/
def statContribution (env : GithubEnv)
    (e : List Char × List Char × List Char) : Nat :=
  match env.commitStats e.1 e.2.1 e.2.2 with
  | Except.error _ => 0
  | Except.ok none => 0
  | Except.ok (some (adds, dels)) => adds + dels

/-- `totalLinesChanged` after the stats worker pool has drained. -/
def totalLinesChanged (env : GithubEnv)
    (entries : List (List Char × List Char × List Char)) : Nat :=
  entries.foldl (fun acc e => acc + statContribution env e) 0

/-- `(owner, name)` pairs pushed into `repoContributionNodes`
(`githubFetcher.ts` lines 163–180): buckets with an absent `repository` are
skipped, `owner` defaults to the empty string. -/
def repoNodesOf (byRepo : List GqlRepoBucket) : List (List Char × List Char) :=
  byRepo.filterMap fun b => b.repository.map fun r => (r.ownerLogin.getD [], r.name)

/-- `repoEntries` built in the same loop. -/
def repoEntriesOf (byRepo : List GqlRepoBucket) : List RepoSummary :=
  byRepo.filterMap fun b =>
    b.repository.map fun r =>
      { owner := r.ownerLogin.getD []
        name := r.name
        description := r.description
        url := r.url
        isPrivate := r.isPrivate.getD false
        stargazers := r.stargazers
        language := r.language }

/-- `cc.commitContributionsByRepository ?? []` under
`user.contributionsCollection ?? {}` (`githubFetcher.ts` lines 154, 161). -/
def byRepoOf (user : GqlUser) : List GqlRepoBucket :=
  match user.contributionsCollection with
  | none => []
  | some cc => cc.commitContributionsByRepository.getD []

/-- The metrics record assembled by `fetchGithubMetrics` once a user record
is present (`githubFetcher.ts` lines 154–338).  The bucket array is created
by `new Array(intervalCount).fill(0)` (line 228), which throws for a
negative count; in the success case its payload is
`List.replicate intervalCount.toNat 0`, the start value `intervalCountsOf`
folds from (with the same nonnegative count for the range check). -/
def assembleMetrics (env : GithubEnv) (user : GqlUser) (dur : List Char)
    (now : Int) : Except (List Char) RawMetrics :=
  let wr := getWindowRange now dur
  let windowHours := jsWindowHours dur
  let intervalSize := calculateIntervalSize windowHours
  let intervalCount := calculateIntervalCount windowHours intervalSize
  let issuesCount := match user.contributionsCollection with
    | none => 0
    | some cc => cc.totalIssueContributions.getD 0
  let prsCount := match user.contributionsCollection with
    | none => 0
    | some cc => cc.totalPullRequestContributions.getD 0
  let reviewsCount := match user.contributionsCollection with
    | none => 0
    | some cc => cc.totalPullRequestReviewContributions.getD 0
  let byRepo := byRepoOf user
  let repoNodes := repoNodesOf byRepo
  let commitTimestamps := repoNodes.flatMap fun r =>
    fetchCommitTimestampsForRepo env wr.fromMs wr.toMs r.1 r.2
  let intervalMs : Int := intervalSize * 3600000
  (jsArrayFill0 intervalCount).map fun _ =>
    let counts :=
      intervalCountsOf wr.fromMs intervalMs intervalCount.toNat commitTimestamps
    { commits_count := commitTimestamps.length
      prs_count := prsCount
      issues_count := issuesCount
      reviews_count := reviewsCount
      repos := repoEntriesOf byRepo
      lines_changed := totalLinesChanged env (shaEntries env repoNodes)
      most_active_hour := mostActiveHourOf intervalSize counts
      hourly_counts := counts
      interval_size := intervalSize }

/-- `fetchGithubMetrics` (`githubFetcher.ts` lines 96–338) as a pure function
of the invocation instant, the inputs and the upstream model.  `window` is
`window.duration` (`none` when the field is absent).  The embedding elides
the JavaScript `Date` range cap (±8.64·10¹⁵ ms) and float rounding: instants
are unbounded integers. -/
def fetchGithubMetrics (env : GithubEnv) (token : List Char)
    (window : Option (List Char)) (now : Int) :
    Except (List Char) RawMetrics :=
  if token = [] then Except.error (("GITHUB_TOKEN is required").toList)
  else
    let dur := window.getD (("24h").toList)
    let windowHours := jsWindowHours dur
    let intervalSize := calculateIntervalSize windowHours
    let intervalCount := calculateIntervalCount windowHours intervalSize
    match env.gql with
    | Except.error e => Except.error e
    | Except.ok data =>
      match data.user with
      | none => emptyMetrics intervalCount
      | some user => assembleMetrics env user dur now

/-! ## `withConcurrency` (`githubFetcher.ts` lines 56–70)

`withConcurrency` spawns `Math.min(items.length, concurrency)` identical
workers over one shared queue.  Each worker repeatedly runs
`const item = queue.shift(); if (!item) break; try { await fn(item) } catch {}`.
Because `queue.shift()` and the call of `fn` happen synchronously between two
suspension points, each item is dequeued exactly once across every
interleaving; because the workers are indistinguishable, a state needs only
the queue, the number of live workers and the list of arguments `fn` has been
invoked on.  `fn`'s outcome (`Except.ok` or a thrown error, both swallowed by
the `catch`) never influences a transition — which is exactly the claim that
per-item errors cannot reject the pool. -/

/-- Worker-pool state: the shared queue, the number of workers that have not
yet hit `break`, and the arguments `fn` has been invoked on so far. -/
structure WCState (T : Type) where
  queue : List T
  workers : Nat
  log : List T
  deriving DecidableEq

/-- One scheduler step of the pool.  `truthy` models JavaScript coercion in
`if (!item) break`; `fn` is carried to record that no transition reads it. -/
inductive WCStep (truthy : T → Bool) (fn : T → Except Unit Unit) :
    WCState T → WCState T → Prop
  | pull {x : T} {q log : List T} {k : Nat} :
      truthy x = true →
      WCStep truthy fn ⟨x :: q, k + 1, log⟩ ⟨q, k + 1, log ++ [x]⟩
  | exitFalsy {x : T} {q log : List T} {k : Nat} :
      truthy x = false →
      WCStep truthy fn ⟨x :: q, k + 1, log⟩ ⟨q, k, log⟩
  | exitEmpty {log : List T} {k : Nat} :
      WCStep truthy fn ⟨[], k + 1, log⟩ ⟨[], k, log⟩

/-- Initial state: the copied queue and
`Array(Math.min(items.length, concurrency))` workers. -/
def wcInit (items : List T) (concurrency : Nat) : WCState T :=
  ⟨items, min items.length concurrency, []⟩

/-- A state of the pool reachable under some interleaving. -/
def WCReachable (truthy : T → Bool) (fn : T → Except Unit Unit) :
    WCState T → WCState T → Prop :=
  Relation.ReflTransGen (WCStep truthy fn)

/-- Termination measure for the pool. -/
def wcMeasure (s : WCState T) : Nat := 2 * s.queue.length + s.workers

/-! ## Concrete runs used to instantiate the theorems below -/

/-- An `Intl` runtime whose timezone database resolves nothing. -/
def rtNone : IntlRuntime := ⟨fun _ => none⟩

/-- An `Intl` runtime that resolves exactly the zone `"X"`, mapping hour `h`
to `(h + 5) % 24`. -/
def rtOne : IntlRuntime :=
  ⟨fun tz => if tz = ("X").toList then some (fun h => some ((h + 5) % 24)) else none⟩

/-- A repository bucket for owner `"o"`, name `nm`. -/
def mkBucket (nm : List Char) : GqlRepoBucket :=
  ⟨some ⟨some (("o").toList), nm, none, none, none, none, none⟩⟩

/-- Upstream run for claim C3: one contributing repository whose commit
search request reports status 403. -/
def env403 : GithubEnv :=
  { gql := Except.ok ⟨some ⟨some ⟨none, none, none, none, some [mkBucket (("r").toList)]⟩⟩⟩
    searchTimestamps := fun _ _ => Except.error 403
    searchShas := fun _ _ => Except.error 403
    commitStats := fun _ _ _ => Except.error 403 }

/-- C10: the duration string `"0h"` matches the valid-duration pattern, but
the parsed hour count `0` is falsy, so `parseInt(...) || 24` treats it like
an unparseable duration: the resolved window is 24 hours ending now. -/
theorem getWindowRange_zero_hours (now : Int) :
    (getWindowRange now (("0h").toList)).toMs = now
    ∧ (getWindowRange now (("0h").toList)).toMs
        - (getWindowRange now (("0h").toList)).fromMs = 24 * 3600000 := by
  have h24 : jsWindowHours (("0h").toList) = 24 := by decide
  unfold getWindowRange
  rw [h24]
  exact ⟨rfl, by simp only; omega⟩

/-! ## Claim C6 -/

theorem int_ceilDiv_le_mul (a b : Int) (hb : 1 ≤ b) : a ≤ b * jsCeilDiv a b := by
  unfold jsCeilDiv
  rw [Int.fdiv_eq_ediv _ (by omega)]
  have h := Int.ediv_add_emod (a + b - 1) b
  have h1 : 0 ≤ (a + b - 1) % b := Int.emod_nonneg _ (by omega)
  have h2 : (a + b - 1) % b < b := Int.emod_lt_of_pos _ (by omega)
  generalize b * ((a + b - 1) / b) = t at h ⊢
  omega

theorem one_le_intervalSize (wh : Int) : 1 ≤ calculateIntervalSize wh := by
  unfold calculateIntervalSize jsCeilDiv
  split_ifs with h1 h2 h3
  · omega
  · omega
  · omega
  · rw [Int.fdiv_eq_ediv _ (by omega)]
    omega

/-- C6: interval size is 1 h for spans ≤ 24 h, 2 h for ≤ 48 h, 3 h for
≤ 72 h, `ceil(span/24)` h beyond; the interval count is
`ceil(span/size)`; hence `size · count ≥ span` always holds. -/
theorem intervalScheme_spec (wh : Int) :
    calculateIntervalSize wh
      = (if wh ≤ 24 then 1 else if wh ≤ 48 then 2 else if wh ≤ 72 then 3
          else jsCeilDiv wh 24)
    ∧ calculateIntervalCount wh (calculateIntervalSize wh)
        = jsCeilDiv wh (calculateIntervalSize wh)
    ∧ wh ≤ calculateIntervalSize wh
        * calculateIntervalCount wh (calculateIntervalSize wh) := by
  refine ⟨rfl, rfl, ?_⟩
  exact int_ceilDiv_le_mul wh (calculateIntervalSize wh) (one_le_intervalSize wh)

/-! ## Claim C5 -/

theorem natMax_def (a b : Nat) : Nat.max a b = if a ≤ b then b else a := by
  simp [Nat.max_def]

theorem le_foldl_max (l : List Nat) (a : Nat) : a ≤ l.foldl Nat.max a := by
  induction l generalizing a with
  | nil => exact Nat.le_refl a
  | cons c rest ih =>
    rw [List.foldl_cons]
    refine Nat.le_trans ?_ (ih (Nat.max a c))
    rw [natMax_def]
    split_ifs <;> omega

theorem foldl_max_eq_foldr (l : List Nat) (a : Nat) :
    l.foldl Nat.max a = Nat.max a (l.foldr Nat.max 0) := by
  induction l generalizing a with
  | nil =>
    rw [List.foldl_nil, List.foldr_nil, natMax_def]
    split_ifs <;> omega
  | cons c rest ih =>
    rw [List.foldl_cons, List.foldr_cons, ih]
    generalize rest.foldr Nat.max 0 = F
    simp only [natMax_def]
    split_ifs <;> omega

/-- Characterization of the scan: the second component is the running
maximum; the first becomes the (offset) index of the first occurrence of
that maximum as soon as some element strictly exceeds the incoming bound. -/
theorem peakLoop_eq (cs : List Nat) (i : Nat) (best : Option Nat) (maxC : Nat) :
    peakLoop cs i best maxC =
      (if maxC < cs.foldl Nat.max maxC
          then some (i + cs.findIdx (fun c => c == cs.foldl Nat.max maxC))
          else best,
        cs.foldl Nat.max maxC) := by
  induction cs generalizing i best maxC with
  | nil =>
    simp [peakLoop]
  | cons c rest ih =>
    rw [peakLoop]
    by_cases hc : maxC < c
    · rw [if_pos hc, ih]
      have hmax : Nat.max maxC c = c := by
        rw [natMax_def]; split_ifs <;> omega
      have hfold : (c :: rest).foldl Nat.max maxC = rest.foldl Nat.max c := by
        rw [List.foldl_cons, hmax]
      set M := rest.foldl Nat.max c with hM
      have hcM : c ≤ M := le_foldl_max rest c
      have hcond : maxC < M := Nat.lt_of_lt_of_le hc hcM
      rw [hfold, if_pos hcond]
      by_cases hM2 : c < M
      · have hne : (c == M) = false := beq_eq_false_iff_ne.mpr (Nat.ne_of_lt hM2)
        rw [if_pos hM2, List.findIdx_cons, hne]
        refine Prod.ext ?_ rfl
        simp only [cond_false]
        congr 1
        omega
      · have heq : (c == M) = true :=
          beq_iff_eq.mpr (Nat.le_antisymm hcM (Nat.le_of_not_lt hM2))
        rw [if_neg hM2, List.findIdx_cons, heq]
        refine Prod.ext ?_ rfl
        simp only [cond_true, Nat.add_zero]
    · rw [if_neg hc, ih]
      have hmax : Nat.max maxC c = maxC := by
        rw [natMax_def]; split_ifs <;> omega
      have hfold : (c :: rest).foldl Nat.max maxC = rest.foldl Nat.max maxC := by
        rw [List.foldl_cons, hmax]
      set M := rest.foldl Nat.max maxC with hM
      rw [hfold]
      by_cases hcond : maxC < M
      · have hne : (c == M) = false :=
          beq_eq_false_iff_ne.mpr
            (Nat.ne_of_lt (Nat.lt_of_le_of_lt (Nat.le_of_not_lt hc) hcond))
        rw [if_pos hcond, if_pos hcond, List.findIdx_cons, hne]
        refine Prod.ext ?_ rfl
        simp only [cond_false]
        congr 1
        omega
      · rw [if_neg hcond, if_neg hcond]

theorem foldr_max_mem (l : List Nat) (h : l.foldr Nat.max 0 ≠ 0) :
    l.foldr Nat.max 0 ∈ l := by
  induction l with
  | nil => exact absurd rfl h
  | cons c rest ih =>
    rw [List.foldr_cons] at h ⊢
    rcases Nat.le_total (rest.foldr Nat.max 0) c with hle | hle
    · have hmx : Nat.max c (rest.foldr Nat.max 0) = c := by
        rw [natMax_def]; split_ifs <;> omega
      rw [hmx]
      exact List.mem_cons.mpr (Or.inl rfl)
    · have hmx : Nat.max c (rest.foldr Nat.max 0) = rest.foldr Nat.max 0 := by
        rw [natMax_def]
        split_ifs
        all_goals omega
      rw [hmx] at h ⊢
      exact List.mem_cons.mpr (Or.inr (ih h))

/-- C5: the engine's peak selection agrees with the spec's description —
the first index attaining the strictly positive maximum (so ties break
toward the lowest index, and all-zero buckets give `null`, never `0`) —
and `findMostActiveHour` computes the same function on 24-bucket arrays. -/
theorem peakSelector_correct (counts : List Nat) :
    mostActiveIntervalOf counts = peakSelectorSpec counts
    ∧ (counts.length = 24 → findMostActiveHour counts = peakSelectorSpec counts) := by
  have main : mostActiveIntervalOf counts = peakSelectorSpec counts := by
    unfold mostActiveIntervalOf peakSelectorSpec
    rw [peakLoop_eq]
    have hF : counts.foldl Nat.max 0 = counts.foldr Nat.max 0 := by
      rw [foldl_max_eq_foldr, natMax_def]
      split_ifs <;> omega
    simp only [hF]
    by_cases h0 : counts.foldr Nat.max 0 = 0
    · rw [h0]
      simp
    · have hpos : 0 < counts.foldr Nat.max 0 := Nat.pos_of_ne_zero h0
      rw [if_pos hpos, if_neg h0, if_neg h0]
      simp [Nat.zero_add]
  refine ⟨main, fun hlen => ?_⟩
  have hmap : (List.range 24).map (fun h => counts.getD h 0) = counts := by
    apply List.ext_getElem
    · simp [hlen]
    · intro n h1 h2
      simp only [List.getElem_map, List.getElem_range]
      exact List.getD_eq_getElem counts 0 h2
  have : findMostActiveHour counts = mostActiveIntervalOf counts := by
    unfold findMostActiveHour mostActiveIntervalOf
    rw [hmap]
  rw [this, main]

/-- Witness for C5: on the 24-bucket array `[3, 3, 0, …]` the selected peak
index is `0`, not `1`. -/
theorem peakSelector_correct_witness :
    findMostActiveHour (3 :: 3 :: List.replicate 22 0) = some 0 := by
  have h := (peakSelector_correct (3 :: 3 :: List.replicate 22 0)).2 (by decide)
  rw [h]
  decide

/-! ## Claim C7 -/

theorem addAt_comm (l : List Nat) :
    ∀ i j v w, addAt (addAt l i v) j w = addAt (addAt l j w) i v := by
  induction l with
  | nil => intro i j v w; rfl
  | cons x xs ih =>
    intro i j v w
    cases i with
    | zero =>
      cases j with
      | zero => simp [addAt, Nat.add_right_comm]
      | succ j => rfl
    | succ i =>
      cases j with
      | zero => rfl
      | succ j => simp [addAt, ih]

theorem bucketStep_comm (fromTime intervalMs : Int) (n : Nat) :
    ∀ (acc : List Nat) (t u : Int),
      bucketStep fromTime intervalMs n (bucketStep fromTime intervalMs n acc t) u
        = bucketStep fromTime intervalMs n (bucketStep fromTime intervalMs n acc u) t := by
  intro acc t u
  simp only [bucketStep, listIncr]
  split_ifs <;> first
    | rfl
    | apply addAt_comm

theorem foldl_perm {α β : Type} (f : α → β → α)
    (hc : ∀ a x y, f (f a x) y = f (f a y) x)
    {l₁ l₂ : List β} (p : l₁.Perm l₂) :
    ∀ a, l₁.foldl f a = l₂.foldl f a := by
  induction p with
  | nil => intro a; rfl
  | cons x _ ih =>
    intro a
    rw [List.foldl_cons, List.foldl_cons]
    exact ih (f a x)
  | swap x y l =>
    intro a
    rw [List.foldl_cons, List.foldl_cons, List.foldl_cons, List.foldl_cons, hc]
  | trans _ _ ih1 ih2 =>
    intro a
    rw [ih1 a, ih2 a]

/-- C7: the Interval Bucketer and the peak selection it feeds are
order-independent — any permutation of the collected commit timestamps
yields identical interval counts and an identical `most_active_hour` — and
being functions of the timestamp list they are trivially idempotent over it. -/
theorem bucketing_perm_invariant (fromTime intervalMs : Int)
    (intervalCount : Nat) (intervalSize : Int) {ts ts' : List Int}
    (hp : ts.Perm ts') :
    intervalCountsOf fromTime intervalMs intervalCount ts
      = intervalCountsOf fromTime intervalMs intervalCount ts'
    ∧ mostActiveHourOf intervalSize
        (intervalCountsOf fromTime intervalMs intervalCount ts)
      = mostActiveHourOf intervalSize
          (intervalCountsOf fromTime intervalMs intervalCount ts') := by
  have h : intervalCountsOf fromTime intervalMs intervalCount ts
      = intervalCountsOf fromTime intervalMs intervalCount ts' := by
    unfold intervalCountsOf
    exact foldl_perm _ (bucketStep_comm fromTime intervalMs intervalCount) hp _
  exact ⟨h, by rw [h]⟩

/-- Witness for C7: swapping two concrete timestamps leaves the interval
counts unchanged. -/
theorem bucketing_perm_invariant_witness :
    intervalCountsOf 0 3600000 24 [3600000, 0]
      = intervalCountsOf 0 3600000 24 [0, 3600000] := by
  exact (bucketing_perm_invariant 0 3600000 24 1
    (List.Perm.swap 0 3600000 [])).1

/-! ## Claim C9 -/

/-- Invariant of the worker pool: the invocations so far followed by the
remaining queue are exactly the original items; a worker survives while the
queue is nonempty; and the queue holds only truthy items. -/
def wcInv {T : Type} (items : List T) (truthy : T → Bool) (s : WCState T) : Prop :=
  s.log ++ s.queue = items
  ∧ (s.queue ≠ [] → 1 ≤ s.workers)
  ∧ ∀ x ∈ s.queue, truthy x = true

theorem wcInv_init {T : Type} {items : List T} {truthy : T → Bool}
    {concurrency : Nat} (hconc : 1 ≤ concurrency)
    (ht : ∀ x ∈ items, truthy x = true) :
    wcInv items truthy (wcInit items concurrency) := by
  refine ⟨rfl, ?_, ht⟩
  intro hne
  have hlen : 1 ≤ items.length := by
    cases items with
    | nil => exact absurd rfl hne
    | cons x xs => exact Nat.succ_le_succ (Nat.zero_le _)
  exact Nat.le_min.mpr ⟨hlen, hconc⟩

theorem wcInv_step {T : Type} {items : List T} {truthy : T → Bool}
    {fn : T → Except Unit Unit} {s s' : WCState T}
    (hstep : WCStep truthy fn s s') (hinv : wcInv items truthy s) :
    wcInv items truthy s' := by
  obtain ⟨hsplit, _hlive, htruthy⟩ := hinv
  cases hstep with
  | pull hx =>
    refine ⟨?_, ?_, ?_⟩
    · rw [List.append_assoc] at *
      exact hsplit
    · intro _
      exact Nat.succ_le_succ (Nat.zero_le _)
    · intro y hy
      exact htruthy y (List.mem_cons.mpr (Or.inr hy))
  | exitFalsy hx =>
    exact absurd (htruthy _ (List.mem_cons.mpr (Or.inl rfl))) (by simp [hx])
  | exitEmpty =>
    exact ⟨hsplit, fun hne => absurd rfl hne, htruthy⟩

theorem wcInv_reachable {T : Type} {items : List T} {truthy : T → Bool}
    {fn : T → Except Unit Unit} {s s' : WCState T}
    (hreach : WCReachable truthy fn s s') (hinv : wcInv items truthy s) :
    wcInv items truthy s' := by
  induction hreach with
  | refl => exact hinv
  | tail _ hstep ih => exact wcInv_step hstep ih

/-- C9: for a list of truthy items and any per-item function (its outcomes —
including thrown, swallowed errors — never enter a transition),
`withConcurrency` invokes `fn` exactly once per list element (at every
terminal state the invocation log is exactly the item list), and every
scheduler step strictly decreases a measure, so the pool always terminates
(the promise resolves, never rejects). -/
theorem withConcurrency_correct {T : Type} (items : List T)
    (concurrency : Nat) (truthy : T → Bool) (fn : T → Except Unit Unit)
    (hconc : 1 ≤ concurrency) (ht : ∀ x ∈ items, truthy x = true) :
    (∀ s : WCState T,
        WCReachable truthy fn (wcInit items concurrency) s →
        s.workers = 0 → s.log = items)
    ∧ ∀ s s' : WCState T, WCStep truthy fn s s' → wcMeasure s' < wcMeasure s := by
  constructor
  · intro s hreach hdone
    obtain ⟨hsplit, hlive, _⟩ := wcInv_reachable hreach (wcInv_init hconc ht)
    have hq : s.queue = [] := by
      by_contra hne
      have := hlive hne
      omega
    rw [hq, List.append_nil] at hsplit
    exact hsplit
  · intro s s' hstep
    cases hstep with
    | pull hx =>
      simp only [wcMeasure, List.length_cons]
      omega
    | exitFalsy hx =>
      simp only [wcMeasure, List.length_cons]
      omega
    | exitEmpty =>
      simp only [wcMeasure]
      omega

/-- Witness for C9: a concrete run over `[1, 2]` with two workers and an
always-throwing `fn` terminates with both items invoked exactly once. -/
theorem withConcurrency_correct_witness :
    (WCState.mk ([] : List Nat) 0 [1, 2]).log = [1, 2] := by
  have hreach : WCReachable (fun _ => true) (fun _ => Except.error ())
      (wcInit [1, 2] 2) ⟨[], 0, [1, 2]⟩ := by
    have h1 : WCStep (fun _ => true) (fun _ => Except.error ())
        ⟨[1, 2], 2, ([] : List Nat)⟩ ⟨[2], 2, [1]⟩ := WCStep.pull rfl
    have h2 : WCStep (fun _ => true) (fun _ => Except.error ())
        ⟨[2], 2, [1]⟩ ⟨[], 2, [1, 2]⟩ := WCStep.pull rfl
    have h3 : WCStep (fun _ => true) (fun _ => Except.error ())
        ⟨[], 2, [1, 2]⟩ ⟨[], 1, [1, 2]⟩ := WCStep.exitEmpty
    have h4 : WCStep (fun _ => true) (fun _ => Except.error ())
        ⟨[], 1, [1, 2]⟩ ⟨[], 0, [1, 2]⟩ := WCStep.exitEmpty
    exact Relation.ReflTransGen.head h1 (Relation.ReflTransGen.head h2
      (Relation.ReflTransGen.head h3 (Relation.ReflTransGen.head h4
        Relation.ReflTransGen.refl)))
  exact (withConcurrency_correct [1, 2] 2 (fun _ => true)
    (fun _ => Except.error ()) (by omega) (fun x _ => rfl)).1
    ⟨[], 0, [1, 2]⟩ hreach rfl

/-! ## Claim C4 -/

/-- C4 is refuted as stated: under a runtime whose timezone database
resolves nothing, converting the hourly counts to the zone `"Bad/Zone"`
raises the `Intl.DateTimeFormat` constructor's `RangeError` — the mapper can
throw, and no fallback tier exists. -/
theorem tz_throw_counterexample :
    convertHourlyCountsToTimezone rtNone (List.replicate 24 0)
        (("Bad/Zone").toList)
      = Except.error () := by
  rfl

/-- C4 (amended): for the literal zone `'UTC'` the counts are returned
unchanged without consulting the runtime; for a zone the runtime resolves,
the mapper returns the formatter's hour, falling back to the input UTC hour
only when the formatted parts carry no hour field; but for a zone the
runtime cannot resolve, the `Intl.DateTimeFormat` constructor throws and the
error propagates out of `convertHourlyCountsToTimezone` — there is no
offset-from-`from` or process-local fallback tier. -/
theorem timezone_mapper_behavior (rt : IntlRuntime) (counts : List Nat)
    (tz : List Char) (utcHour : Nat) :
    convertHourlyCountsToTimezone rt counts utcChars = Except.ok counts
    ∧ (∀ fmtHour, rt.resolveTZ tz = some fmtHour →
        convertUTCHourToTimezone rt utcHour tz
          = Except.ok ((fmtHour utcHour).getD utcHour))
    ∧ (rt.resolveTZ tz = none →
        convertUTCHourToTimezone rt utcHour tz = Except.error ())
    ∧ (tz ≠ utcChars → rt.resolveTZ tz = none →
        convertHourlyCountsToTimezone rt counts tz = Except.error ()) := by
  refine ⟨?_, ?_, ?_, ?_⟩
  · unfold convertHourlyCountsToTimezone
    rw [if_pos rfl]
  · intro fmtHour hres
    unfold convertUTCHourToTimezone
    rw [hres]
    show (match fmtHour utcHour with
      | some h => Except.ok h
      | none => Except.ok utcHour) = Except.ok ((fmtHour utcHour).getD utcHour)
    cases fmtHour utcHour with
    | none => rfl
    | some h => rfl
  · intro hres
    unfold convertUTCHourToTimezone
    rw [hres]
  · intro htz hres
    unfold convertHourlyCountsToTimezone
    rw [if_neg htz]
    have h24 : (24 : Nat) = 23 + 1 := rfl
    rw [h24, List.range_succ_eq_map, List.foldlM_cons]
    have h0 : convertUTCHourToTimezone rt 0 tz = Except.error () := by
      unfold convertUTCHourToTimezone
      rw [hres]
    rw [h0]
    rfl

/-- Witness for C4: under a runtime resolving exactly `"X"` (shifting hours
by +5), hour 3 maps to 8 in `"X"` and throws in `"Y"`. -/
theorem timezone_mapper_behavior_witness :
    convertUTCHourToTimezone rtOne 3 (("X").toList) = Except.ok 8
    ∧ convertUTCHourToTimezone rtOne 3 (("Y").toList) = Except.error () := by
  constructor
  · have h := (timezone_mapper_behavior rtOne [] (("X").toList) 3).2.1
      (fun h => some ((h + 5) % 24)) (by rfl)
    exact h
  · exact (timezone_mapper_behavior rtOne [] (("Y").toList) 3).2.2.1 (by rfl)

/-! ## Claim C3 -/

/-- C3 is refuted as stated: with the commit search reporting status 403 for
the run's one contributing repository, the Commit Detail Collector returns
the empty list for it at once — the repository contributes zero commits and
the run's `commits_count` is 0; no fallback commit-listing endpoint is
consulted (the function's only upstream input is the search response). -/
theorem searchFailure_counterexample :
    fetchCommitTimestampsForRepo env403 0 3600000 (("o").toList) (("r").toList) = []
    ∧ (match fetchGithubMetrics env403 (("t").toList) none 3600000 with
        | Except.ok m => m.commits_count
        | Except.error _ => 1) = 0 := by
  constructor
  · rfl
  · rfl

/-- C3 (amended): for every repository whose commit search query returns a
non-success status, `fetchCommitTimestampsForRepo` logs the failure and
immediately contributes zero commits (the empty timestamp list); this
revision has no fallback commit-listing path. -/
theorem fetchCommitTimestamps_error_empty (env : GithubEnv)
    (fromMs toMs : Int) (owner repo : List Char) (status : Nat)
    (herr : env.searchTimestamps owner repo = Except.error status) :
    fetchCommitTimestampsForRepo env fromMs toMs owner repo = [] := by
  unfold fetchCommitTimestampsForRepo
  rw [herr]

/-- Witness for C3: the 403-status run contributes zero commits. -/
theorem fetchCommitTimestamps_error_empty_witness :
    fetchCommitTimestampsForRepo env403 5 6 (("a").toList) (("b").toList) = [] :=
  fetchCommitTimestamps_error_empty env403 5 6 (("a").toList) (("b").toList)
    403 rfl

/-! ## Claim C8 -/

end Weft
